import Mathlib

/-!
Verification of the pulse-docs repository: the `SecretsManager` layered
credential resolution (mcp-server/src/secrets.ts), the service adapters
(`SupabaseIntegration`, `GitHubIntegration`, `GCloudIntegration`) and the
repository-cloning shell script (`setup_repos.sh`).

The TypeScript source is embedded shallowly:
- JavaScript values that flow through filters are modelled by `JVal`
  (null, undefined, string, number, boolean, array, plain object);
  JS truthiness is `truthyJ` / `truthyS` / `truthyO`.
- The mutable `this.secrets` record is modelled by explicit state passing
  (`SMState`); external effects (subprocess calls, Secret Manager fetches,
  environment variables) are an explicit `World` record, and every external
  call performed is recorded in a `trace` field of the state.
- Exceptions are modelled by `StepRes`: a computation either returns
  normally or is `thrown` carrying the state at the throw site, matching
  JavaScript semantics where mutations made before a throw survive into
  the catch handler.
-/

set_option autoImplicit false

namespace PulseDocs

/-- JavaScript truthiness of a string: the empty string is falsy. -/
def truthyS (s : String) : Bool := s != ""

/-- JavaScript truthiness of a possibly-undefined string
(`undefined` and `''` are falsy). -/
def truthyO : Option String → Bool
  | none => false
  | some s => truthyS s

/-- A JavaScript value as it appears in tool arguments.  `vobj` keeps only
the two fields the query dispatcher inspects (`operator` and `value`);
a missing field is `none` (i.e. JS `undefined`). -/
inductive JVal where
  | vnull
  | vundef
  | vstr (s : String)
  | vnum (n : Int)
  | vbool (b : Bool)
  | varr (xs : List JVal)
  | vobj (op : Option JVal) (value : Option JVal)

/-- JavaScript truthiness of a `JVal`: `null`, `undefined`, `''`, `0` and
`false` are falsy; arrays and objects are always truthy. -/
def truthyJ : JVal → Bool
  | .vnull => false
  | .vundef => false
  | .vstr s => truthyS s
  | .vnum n => n != 0
  | .vbool b => b
  | .varr _ => true
  | .vobj _ _ => true

/-- One call made on the supabase-js query builder while
`SupabaseIntegration.query` assembles a query. -/
inductive QueryStep where
  | select (cols : String)
  | isNull (key : String)
  | eq (key : String) (v : JVal)
  | neq (key : String) (v : JVal)
  | gt (key : String) (v : JVal)
  | gte (key : String) (v : JVal)
  | lt (key : String) (v : JVal)
  | lte (key : String) (v : JVal)
  | like (key : String) (v : JVal)
  | ilike (key : String) (v : JVal)
  | inOp (key : String) (v : JVal)
  | order (column : String) (ascending : Bool)
  | limit (n : Int)

/-- The `switch (value.operator)` statement of `SupabaseIntegration.query`
(src/integrations/supabase.ts): each recognised case chains one builder
call; the switch has no default, so an unrecognised operator chains
nothing. -/
def opSwitch (key : String) (op : String) (v : JVal) : List QueryStep :=
  if op = "eq" then [QueryStep.eq key v]
  else if op = "neq" then [QueryStep.neq key v]
  else if op = "gt" then [QueryStep.gt key v]
  else if op = "gte" then [QueryStep.gte key v]
  else if op = "lt" then [QueryStep.lt key v]
  else if op = "lte" then [QueryStep.lte key v]
  else if op = "like" then [QueryStep.like key v]
  else if op = "ilike" then [QueryStep.ilike key v]
  else if op = "in" then [QueryStep.inOp key v]
  else []

/-- The operator strings recognised by the switch. -/
def supportedOps : List String :=
  ["eq", "neq", "gt", "gte", "lt", "lte", "like", "ilike", "in"]

/-- Dispatch for one `[key, value]` entry of `args.filter`
(`SupabaseIntegration.query`):
`value === null` chains `.is(key, null)`; otherwise an object with a
truthy `operator` field goes through the switch (JS `switch` uses strict
equality, so a truthy non-string operator matches no case); everything
else — scalars, arrays, and objects whose `operator` field is falsy or
absent — chains `.eq(key, value)`. -/
def applyFilterEntry : String × JVal → List QueryStep
  | (key, JVal.vnull) => [QueryStep.isNull key]
  | (key, JVal.vobj op value) =>
      let o := op.getD JVal.vundef
      if truthyJ o then
        match o with
        | JVal.vstr s => opSwitch key s (value.getD JVal.vundef)
        | _ => []
      else [QueryStep.eq key (JVal.vobj op value)]
  | (key, JVal.varr xs) => [QueryStep.eq key (JVal.varr xs)]
  | (key, v) => [QueryStep.eq key v]

/-- The `for (const [key, value] of Object.entries(args.filter))` loop:
filter entries are processed in order, each contributing its builder
calls. -/
def filterSteps : List (String × JVal) → List QueryStep
  | [] => []
  | kv :: rest => applyFilterEntry kv ++ filterSteps rest

/-- `orderBy` argument of a query (`{ column, ascending? }`). -/
structure OrderBy where
  column : String
  ascending : Option Bool

/-- Arguments of `SupabaseIntegration.query` (`SupabaseQueryArgs`).
The filter map is a list of entries in `Object.entries` order. -/
structure SupabaseQueryArgs where
  table : String
  select : Option String
  filter : Option (List (String × JVal))
  limit : Option Int
  orderBy : Option OrderBy

/-- `args.select || '*'`: an absent or empty selection falls back to
`'*'`. -/
def selectCols (s : Option String) : String :=
  if truthyO s then s.getD "" else "*"

/-- `if (args.orderBy) query = query.order(column, { ascending: args.orderBy.ascending ?? true })`. -/
def orderSteps : Option OrderBy → List QueryStep
  | none => []
  | some o => [QueryStep.order o.column (o.ascending.getD true)]

/-- `if (args.limit) query = query.limit(args.limit)`: the limit clause is
chained only when `args.limit` is truthy, so a supplied limit of `0` is
dropped. -/
def limitSteps : Option Int → List QueryStep
  | none => []
  | some n => if n = 0 then [] else [QueryStep.limit n]

/-- The full builder chain assembled by `SupabaseIntegration.query`:
select, then filters in entry order, then ordering, then limit. -/
def buildQuery (args : SupabaseQueryArgs) : List QueryStep :=
  QueryStep.select (selectCols args.select) ::
    (filterSteps (args.filter.getD []) ++ orderSteps args.orderBy ++
      limitSteps args.limit)

/-! ## SecretsManager (mcp-server/src/secrets.ts) -/

/-- The `supabase` sub-record of the `Secrets` interface. -/
structure SupabaseSecrets where
  url : String
  anonKey : String
  serviceRoleKey : Option String
deriving DecidableEq

/-- The `github` sub-record of the `Secrets` interface. -/
structure GithubSecrets where
  token : String
deriving DecidableEq

/-- The `gcloud` sub-record of the `Secrets` interface. -/
structure GcloudSecrets where
  projectId : String
  applicationCredentials : Option String
deriving DecidableEq

/-- `Partial<Secrets>`: each sub-record is optional. -/
structure Secrets where
  supabase : Option SupabaseSecrets
  github : Option GithubSecrets
  gcloud : Option GcloudSecrets
deriving DecidableEq

/-- The mutable state of a `SecretsManager` instance: the `secrets` record,
whether `this.secretClient` has been constructed, and the trace of external
calls (subprocess executions, Secret Manager fetches) made so far. -/
structure SMState where
  secrets : Secrets
  secretClient : Bool
  trace : List String
deriving DecidableEq

/-- Outcomes of the external collaborators of `SecretsManager`: each
subprocess call, secret fetch or constructor may yield a value or throw;
environment variables are possibly-absent strings.  Subprocess outputs are
modelled post-`trim()`. -/
structure World where
  execProject : Except String String
  execAdcPath : Except String String
  adcExists : String → Except String Bool
  newSecretClient : Except String Unit
  accessSecretVersion : String → Except String (Option String)
  execPrintAccessToken : Except String String
  envSupabaseUrl : Option String
  envSupabaseAnonKey : Option String
  envSupabaseServiceRoleKey : Option String
  envGithubToken : Option String
  envGcloudProject : Option String

/-- Result of running a statement block: either a normal return or a thrown
exception.  Both carry the state reached, since in JavaScript mutations made
before a throw are kept when the exception is caught. -/
inductive StepRes (α : Type) where
  | ok (a : α) (st : SMState)
  | thrown (e : String) (st : SMState)

/-- The state reached, whether or not an exception was thrown.  Applying
this to a block models `try { block } catch (e) { console.error(...) }`. -/
def StepRes.state {α : Type} : StepRes α → SMState
  | .ok _ st => st
  | .thrown _ st => st

/-- Whether the block returned normally. -/
def StepRes.isOkB {α : Type} : StepRes α → Bool
  | .ok _ _ => true
  | .thrown _ _ => false

/-- Sequencing of statement blocks: a thrown exception skips the rest. -/
def seqStep (r : StepRes Unit) (f : SMState → StepRes Unit) : StepRes Unit :=
  match r with
  | .ok _ st => f st
  | .thrown e st => .thrown e st

/-- Record one external call in the trace. -/
def recordCall (st : SMState) (ev : String) : SMState :=
  { st with trace := st.trace ++ [ev] }

/-- `this.secrets.supabase = ...`. -/
def setSupabase (st : SMState) (sb : SupabaseSecrets) : SMState :=
  { st with secrets := { st.secrets with supabase := some sb } }

/-- `this.secrets.github = ...`. -/
def setGithub (st : SMState) (g : GithubSecrets) : SMState :=
  { st with secrets := { st.secrets with github := some g } }

/-- `this.secrets.gcloud = ...`. -/
def setGcloud (st : SMState) (gc : GcloudSecrets) : SMState :=
  { st with secrets := { st.secrets with gcloud := some gc } }

/-- `this.secretClient = new SecretManagerServiceClient()` — the
constructor call may throw. -/
def constructSecretClient (w : World) (st : SMState) : StepRes Unit :=
  let st := recordCall st "new SecretManagerServiceClient"
  match w.newSecretClient with
  | .error e => .thrown e st
  | .ok _ => .ok () { st with secretClient := true }

/-- Body of `SecretsManager.initializeGCloud` (before its `catch`): probe
`gcloud` for the current project, record it, look for application-default
credentials, and construct the Secret Manager client.  Any of the external
calls may throw. -/
def initializeGCloudBody (w : World) (st : SMState) : StepRes Unit :=
  let st := recordCall st "execSync:gcloud config get-value project"
  match w.execProject with
  | .error e => .thrown e st
  | .ok projectId =>
    if truthyS projectId then
      let st := setGcloud st { projectId := projectId, applicationCredentials := none }
      let st := recordCall st "execSync:gcloud info adc-path"
      match w.execAdcPath with
      | .error e => .thrown e st
      | .ok adcPath =>
        if truthyS adcPath then
          let st := recordCall st ("fs.existsSync:" ++ adcPath)
          match w.adcExists adcPath with
          | .error e => .thrown e st
          | .ok ex =>
            let st :=
              if ex then
                setGcloud st { projectId := projectId, applicationCredentials := some adcPath }
              else st
            constructSecretClient w st
        else constructSecretClient w st
    else .ok () st

/-- The state of a freshly allocated `SecretsManager` before its
constructor body runs: no secrets, no client, no calls. -/
def initState : SMState :=
  { secrets := { supabase := none, github := none, gcloud := none },
    secretClient := false, trace := [] }

/-- `SecretsManager.initializeGCloud`: the body wrapped in its
`try/catch` (the catch only logs). -/
def initializeGCloud (w : World) (st : SMState) : SMState :=
  (initializeGCloudBody w st).state

/-- `new SecretsManager()`: the constructor runs `initializeGCloud`. -/
def mkSecretsManager (w : World) : SMState :=
  initializeGCloud w initState

/-- The public construction as a statement block: the `try/catch` inside
`initializeGCloud` means construction always returns normally. -/
def ctorRes (w : World) : StepRes Unit :=
  .ok () (mkSecretsManager w)

/-- The fully-qualified secret version name composed by
`SecretsManager.getSecret`. -/
def secretName (projectId secretId : String) : String :=
  "projects/" ++ projectId ++ "/secrets/" ++ secretId ++ "/versions/latest"

/-- `SecretsManager.getSecret`: dereference `this.secretClient!` (a
`TypeError` if the client is unset — caught by this method's own
`try/catch`), fetch the latest version, and decode the payload; any
failure is caught and turned into `undefined`.  Returns the value together
with the updated state (the fetch attempt is traced). -/
def getSecretStep (w : World) (st : SMState) (projectId secretId : String) :
    Option String × SMState :=
  if st.secretClient then
    let st := recordCall st ("accessSecretVersion:" ++ secretName projectId secretId)
    match w.accessSecretVersion (secretName projectId secretId) with
    | .ok v => (v, st)
    | .error _ => (none, st)
  else (none, st)

/-- Body of `SecretsManager.loadFromSecretManager` (before its `catch`):
fetch the three supabase secrets and the github token; populate
`secrets.supabase` only when both the url and the anon key are truthy, and
`secrets.github` when the token is truthy. -/
def loadFromSecretManagerBody (w : World) (st : SMState) : StepRes Unit :=
  match st.secrets.gcloud with
  | none => .thrown "TypeError: cannot read projectId of undefined" st
  | some gc =>
    let projectId := gc.projectId
    let (supabaseUrl, st) := getSecretStep w st projectId "supabase-url"
    let (supabaseAnonKey, st) := getSecretStep w st projectId "supabase-anon-key"
    let (supabaseServiceKey, st) := getSecretStep w st projectId "supabase-service-role-key"
    let st :=
      if truthyO supabaseUrl && truthyO supabaseAnonKey then
        setSupabase st
          { url := supabaseUrl.getD "", anonKey := supabaseAnonKey.getD "",
            serviceRoleKey := supabaseServiceKey }
      else st
    let (githubToken, st) := getSecretStep w st projectId "github-token"
    let st :=
      if truthyO githubToken then setGithub st { token := githubToken.getD "" }
      else st
    .ok () st

/-- `SecretsManager.loadFromSecretManager` with its `try/catch`. -/
def loadFromSecretManager (w : World) (st : SMState) : SMState :=
  (loadFromSecretManagerBody w st).state

/-- Truthiness of `this.secrets.github?.token`. -/
def githubTokenTruthy (s : Secrets) : Bool :=
  match s.github with
  | some g => truthyS g.token
  | none => false

/-- Truthiness of `this.secrets.supabase?.url`. -/
def supabaseUrlTruthy (s : Secrets) : Bool :=
  match s.supabase with
  | some sb => truthyS sb.url
  | none => false

/-- Truthiness of `this.secrets.gcloud?.projectId`. -/
def gcloudProjectTruthy (s : Secrets) : Bool :=
  match s.gcloud with
  | some gc => truthyS gc.projectId
  | none => false

/-- Body of `SecretsManager.loadFromGCloudConfig` (before its silent
`catch`): derive a bearer token from the ambient CLI; set
`secrets.github` only when the token is truthy and no token is set yet. -/
def loadFromGCloudConfigBody (w : World) (st : SMState) : StepRes Unit :=
  let st := recordCall st "execSync:gcloud auth application-default print-access-token"
  match w.execPrintAccessToken with
  | .error e => .thrown e st
  | .ok githubToken =>
    if truthyS githubToken && !githubTokenTruthy st.secrets then
      .ok () (setGithub st { token := githubToken })
    else .ok () st

/-- `SecretsManager.loadFromGCloudConfig` with its `try/catch`. -/
def loadFromGCloudConfig (w : World) (st : SMState) : SMState :=
  (loadFromGCloudConfigBody w st).state

/-- Environment fallback for `secrets.supabase`: fires only when the
stored url is not yet truthy and `SUPABASE_URL` is truthy; the anon key
falls back to `''` when `SUPABASE_ANON_KEY` is absent. -/
def envSupabase (w : World) (s : Secrets) : Secrets :=
  if !supabaseUrlTruthy s && truthyO w.envSupabaseUrl then
    let sb : SupabaseSecrets :=
      { url := w.envSupabaseUrl.getD "", anonKey := w.envSupabaseAnonKey.getD "",
        serviceRoleKey := w.envSupabaseServiceRoleKey }
    { s with supabase := some sb }
  else s

/-- Environment fallback for `secrets.github`. -/
def envGithub (w : World) (s : Secrets) : Secrets :=
  if !githubTokenTruthy s && truthyO w.envGithubToken then
    { s with github := some ({ token := w.envGithubToken.getD "" }) }
  else s

/-- Environment fallback for `secrets.gcloud`: spreads any existing
record (so `applicationCredentials` survives) and sets `projectId` from
`GCLOUD_PROJECT`. -/
def envGcloud (w : World) (s : Secrets) : Secrets :=
  if !gcloudProjectTruthy s && truthyO w.envGcloudProject then
    let gc : GcloudSecrets :=
      { projectId := w.envGcloudProject.getD "",
        applicationCredentials := s.gcloud.bind GcloudSecrets.applicationCredentials }
    { s with gcloud := some gc }
  else s

/-- `SecretsManager.loadFromEnvironment`: the three fallbacks in source
order (supabase, github, gcloud); reading `process.env` cannot throw. -/
def loadFromEnvironment (w : World) (st : SMState) : SMState :=
  { st with secrets := envGcloud w (envGithub w (envSupabase w st.secrets)) }

/-- The managed-store stage as called from `loadSecrets`: it runs only
when `this.secretClient` exists and `this.secrets.gcloud?.projectId` is
truthy. -/
def stage1Run (w : World) (st : SMState) : SMState :=
  if st.secretClient && gcloudProjectTruthy st.secrets then
    loadFromSecretManager w st
  else st

/-- `SecretsManager.loadSecrets` as a statement block: managed-store
stage (guarded, internally caught), CLI fallback (internally caught),
then the environment fallback (which contains no throwing call). -/
def loadSecretsRes (w : World) (st : SMState) : StepRes Unit :=
  seqStep (.ok () (stage1Run w st)) fun st =>
    seqStep (.ok () (loadFromGCloudConfig w st)) fun st =>
      .ok () (loadFromEnvironment w st)

/-- The state after `loadSecrets`. -/
def loadSecrets (w : World) (st : SMState) : SMState :=
  (loadSecretsRes w st).state

/-- Construction followed by `loadSecrets()`. -/
def loadAll (w : World) : SMState :=
  loadSecrets w (mkSecretsManager w)

/-- `SecretsManager.getSupabaseConfig`. -/
def getSupabaseConfig (st : SMState) : Option SupabaseSecrets :=
  st.secrets.supabase

/-- `SecretsManager.getGitHubToken`. -/
def getGitHubToken (st : SMState) : Option String :=
  st.secrets.github.map GithubSecrets.token

/-- `SecretsManager.getGCloudConfig`. -/
def getGCloudConfig (st : SMState) : Option GcloudSecrets :=
  st.secrets.gcloud

/-- `SecretsManager.hasSupabase`:
`!!(this.secrets.supabase?.url && this.secrets.supabase?.anonKey)`. -/
def hasSupabase (st : SMState) : Bool :=
  match st.secrets.supabase with
  | some sb => truthyS sb.url && truthyS sb.anonKey
  | none => false

/-- `SecretsManager.hasGitHub`: `!!this.secrets.github?.token`. -/
def hasGitHub (st : SMState) : Bool :=
  githubTokenTruthy st.secrets

/-- `SecretsManager.hasGCloud`: `!!this.secrets.gcloud?.projectId`. -/
def hasGCloud (st : SMState) : Bool :=
  gcloudProjectTruthy st.secrets

/-! ## Service adapters

Each adapter holds a lazily constructed client handle; every operational
method first checks the handle and otherwise performs its underlying
library call (recorded in an event list) and translates the library's
error signal.  Response reshaping (field mapping of the returned JSON) is
abstracted: the underlying call's payload is passed through as a `JVal`. -/

/-- A JavaScript `Error` as observed by a caller: an optional `status`
(set on HTTP errors from the GitHub client) and a message. -/
structure JsError where
  status : Option Int
  message : String
deriving DecidableEq

/-- Result of an adapter method: either a payload or a thrown error,
together with the list of external calls (network or subprocess) made. -/
abbrev AdapterRes := Except JsError JVal × List String

/-- Outcomes of the supabase-js client calls. The query/update/delete
outcomes are functions of the table and the assembled builder chain; an
`error` carries the library's `error.message`. -/
structure SupaWorld where
  runQuery : String → List QueryStep → Except String JVal
  runInsert : String → JVal → Except String JVal
  runUpdate : String → JVal → List QueryStep → Except String JVal
  runDelete : String → List QueryStep → Except String JVal
  runRpc : String → Option JVal → Except String JVal

/-- Arguments of `SupabaseIntegration.insert`. -/
structure SupabaseInsertArgs where
  table : String
  data : JVal

/-- Arguments of `SupabaseIntegration.update`. -/
structure SupabaseUpdateArgs where
  table : String
  data : JVal
  filter : List (String × JVal)

/-- Arguments of `SupabaseIntegration.delete`. -/
structure SupabaseDeleteArgs where
  table : String
  filter : List (String × JVal)

/-- Arguments of `SupabaseIntegration.rpc`. -/
structure SupabaseRpcArgs where
  functionName : String
  params : Option JVal

/-- `SupabaseIntegration.initialize`: reads the credential sub-record;
absent or incomplete credentials leave the adapter uninitialized and
return `false`.  The returned pair is (return value, client handle
constructed). -/
def SupabaseIntegration.initializeClient (sm : SMState) : Bool × Bool :=
  match getSupabaseConfig sm with
  | none => (false, false)
  | some cfg =>
    if !truthyS cfg.url || !truthyS cfg.anonKey then (false, false)
    else (true, true)

/-- `SupabaseIntegration.isAvailable`: `!!this.client`. -/
def SupabaseIntegration.isAvailable (client : Bool) : Bool := client

/-- `SupabaseIntegration.query`: guard on `this.client`, assemble the
builder chain (select, filters, ordering, limit), run it, and translate a
library error into `Supabase query error: ...`. -/
def SupabaseIntegration.query (client : Bool) (w : SupaWorld)
    (args : SupabaseQueryArgs) : AdapterRes :=
  if !client then (.error { status := none, message := "Supabase client not initialized" }, [])
  else
    let steps := buildQuery args
    let ev := "supabase.from(" ++ args.table ++ ").query"
    match w.runQuery args.table steps with
    | .ok d => (.ok d, [ev])
    | .error m =>
        (.error { status := none, message := "Supabase query error: " ++ m }, [ev])

/-- `SupabaseIntegration.insert`. -/
def SupabaseIntegration.insert (client : Bool) (w : SupaWorld)
    (args : SupabaseInsertArgs) : AdapterRes :=
  if !client then (.error { status := none, message := "Supabase client not initialized" }, [])
  else
    let ev := "supabase.from(" ++ args.table ++ ").insert"
    match w.runInsert args.table args.data with
    | .ok d => (.ok d, [ev])
    | .error m =>
        (.error { status := none, message := "Supabase insert error: " ++ m }, [ev])

/-- The filters of `update`/`delete`: every entry is applied with `.eq`. -/
def eqFilterSteps (entries : List (String × JVal)) : List QueryStep :=
  entries.map fun kv => QueryStep.eq kv.1 kv.2

/-- `SupabaseIntegration.update`. -/
def SupabaseIntegration.update (client : Bool) (w : SupaWorld)
    (args : SupabaseUpdateArgs) : AdapterRes :=
  if !client then (.error { status := none, message := "Supabase client not initialized" }, [])
  else
    let ev := "supabase.from(" ++ args.table ++ ").update"
    match w.runUpdate args.table args.data (eqFilterSteps args.filter) with
    | .ok d => (.ok d, [ev])
    | .error m =>
        (.error { status := none, message := "Supabase update error: " ++ m }, [ev])

/-- `SupabaseIntegration.delete`. -/
def SupabaseIntegration.delete (client : Bool) (w : SupaWorld)
    (args : SupabaseDeleteArgs) : AdapterRes :=
  if !client then (.error { status := none, message := "Supabase client not initialized" }, [])
  else
    let ev := "supabase.from(" ++ args.table ++ ").delete"
    match w.runDelete args.table (eqFilterSteps args.filter) with
    | .ok d => (.ok d, [ev])
    | .error m =>
        (.error { status := none, message := "Supabase delete error: " ++ m }, [ev])

/-- `SupabaseIntegration.rpc`. -/
def SupabaseIntegration.rpc (client : Bool) (w : SupaWorld)
    (args : SupabaseRpcArgs) : AdapterRes :=
  if !client then (.error { status := none, message := "Supabase client not initialized" }, [])
  else
    let ev := "supabase.rpc(" ++ args.functionName ++ ")"
    match w.runRpc args.functionName args.params with
    | .ok d => (.ok d, [ev])
    | .error m =>
        (.error { status := none, message := "Supabase RPC error: " ++ m }, [ev])

/-! ### GitHubIntegration (mcp-server/src/integrations/github.ts) -/

/-- Outcomes of the Octokit REST calls, indexed by the event string the
adapter records for the call.  Errors are JavaScript errors with an
optional HTTP status. -/
structure GitWorld where
  call : String → Except JsError JVal

/-- `GitHubIntegration.initialize`: `false` when no token is available. -/
def GitHubIntegration.initializeClient (sm : SMState) : Bool × Bool :=
  match getGitHubToken sm with
  | none => (false, false)
  | some t => if !truthyS t then (false, false) else (true, true)

/-- `GitHubIntegration.isAvailable`. -/
def GitHubIntegration.isAvailable (octokit : Bool) : Bool := octokit

/-- The uninitialized-guard error of every GitHub method. -/
def githubUninit : JsError :=
  { status := none, message := "GitHub client not initialized" }

/-- The common shape of the simple GitHub methods: guard on
`this.octokit`, perform one Octokit call, propagate its payload and its
error untranslated. -/
def githubSimpleCall (octokit : Bool) (w : GitWorld) (ev : String) : AdapterRes :=
  if !octokit then (.error githubUninit, [])
  else
    match w.call ev with
    | .ok d => (.ok d, [ev])
    | .error e => (.error e, [ev])

/-- `GitHubIntegration.getRepository` (response field mapping
abstracted). -/
def GitHubIntegration.getRepository (octokit : Bool) (w : GitWorld)
    (owner repo : String) : AdapterRes :=
  githubSimpleCall octokit w ("octokit.repos.get:" ++ owner ++ "/" ++ repo)

/-- `GitHubIntegration.listIssues`. -/
def GitHubIntegration.listIssues (octokit : Bool) (w : GitWorld)
    (owner repo : String) : AdapterRes :=
  githubSimpleCall octokit w ("octokit.issues.listForRepo:" ++ owner ++ "/" ++ repo)

/-- `GitHubIntegration.createIssue`. -/
def GitHubIntegration.createIssue (octokit : Bool) (w : GitWorld)
    (owner repo title : String) : AdapterRes :=
  githubSimpleCall octokit w ("octokit.issues.create:" ++ owner ++ "/" ++ repo ++ ":" ++ title)

/-- `GitHubIntegration.listPullRequests`. -/
def GitHubIntegration.listPullRequests (octokit : Bool) (w : GitWorld)
    (owner repo : String) : AdapterRes :=
  githubSimpleCall octokit w ("octokit.pulls.list:" ++ owner ++ "/" ++ repo)

/-- `GitHubIntegration.createPullRequest`. -/
def GitHubIntegration.createPullRequest (octokit : Bool) (w : GitWorld)
    (owner repo title head base : String) : AdapterRes :=
  githubSimpleCall octokit w
    ("octokit.pulls.create:" ++ owner ++ "/" ++ repo ++ ":" ++ head ++ "->" ++ base ++ ":" ++ title)

/-- `GitHubIntegration.getFileContent`: guard, one `getContent` call, and
a `catch` that rewrites a 404 into `File not found: <path>` and rethrows
anything else. -/
def GitHubIntegration.getFileContent (octokit : Bool) (w : GitWorld)
    (owner repo path : String) : AdapterRes :=
  if !octokit then (.error githubUninit, [])
  else
    let ev := "octokit.repos.getContent:" ++ owner ++ "/" ++ repo ++ ":" ++ path
    match w.call ev with
    | .ok d => (.ok d, [ev])
    | .error e =>
        if e.status = some 404 then
          (.error { status := none, message := "File not found: " ++ path }, [ev])
        else (.error e, [ev])

/-- `GitHubIntegration.search`: the search type selects one of four
Octokit search endpoints. -/
def GitHubIntegration.search (octokit : Bool) (w : GitWorld)
    (searchType query : String) : AdapterRes :=
  githubSimpleCall octokit w ("octokit.search." ++ searchType ++ ":" ++ query)

/-! ### GCloudIntegration (mcp-server/src/integrations/gcloud.ts) -/

/-- The client handles of a `GCloudIntegration`: the storage client, the
Secret Manager client, and the cached project id.  All three are unset
until a successful `initialize()`. -/
structure GCState where
  storage : Bool
  secretClient : Bool
  projectId : Option String
deriving DecidableEq

/-- A `GCloudIntegration` before any successful `initialize()`. -/
def GCState.uninit : GCState :=
  { storage := false, secretClient := false, projectId := none }

/-- Outcomes of the Google Cloud library calls and of `execSync`. -/
structure GCWorld where
  call : String → Except JsError JVal
  execSyncCmd : String → Except JsError String

/-- `GCloudIntegration.initialize`: requires a truthy project id from the
secrets layer; client construction failures are caught and yield
`false`. -/
def GCloudIntegration.initializeClient (sm : SMState) (ctorOk : Except String Unit) :
    Bool × GCState :=
  match getGCloudConfig sm with
  | none => (false, GCState.uninit)
  | some cfg =>
    if !truthyS cfg.projectId then (false, GCState.uninit)
    else
      match ctorOk with
      | .ok _ =>
          (true, { storage := true, secretClient := true, projectId := some cfg.projectId })
      | .error _ => (false, { storage := false, secretClient := false, projectId := some cfg.projectId })

/-- `GCloudIntegration.isAvailable`:
`!!(this.storage && this.secretClient && this.projectId)`. -/
def GCloudIntegration.isAvailable (st : GCState) : Bool :=
  st.storage && st.secretClient && truthyO st.projectId

/-- The uninitialized-guard error of the storage methods. -/
def gcsUninit : JsError :=
  { status := none, message := "Google Cloud Storage client not initialized" }

/-- `GCloudIntegration.listBucketContents`: guard on `this.storage`, one
`getFiles` call (response mapping abstracted). -/
def GCloudIntegration.listBucketContents (st : GCState) (w : GCWorld)
    (bucket : String) : AdapterRes :=
  if !st.storage then (.error gcsUninit, [])
  else
    let ev := "storage.bucket(" ++ bucket ++ ").getFiles"
    match w.call ev with
    | .ok d => (.ok d, [ev])
    | .error e => (.error e, [ev])

/-- `GCloudIntegration.readFile`: guard on `this.storage`, one `download`
call. -/
def GCloudIntegration.readFile (st : GCState) (w : GCWorld)
    (bucket file : String) : AdapterRes :=
  if !st.storage then (.error gcsUninit, [])
  else
    let ev := "storage.bucket(" ++ bucket ++ ").file(" ++ file ++ ").download"
    match w.call ev with
    | .ok d => (.ok d, [ev])
    | .error e => (.error e, [ev])

/-- `GCloudIntegration.writeFile`: guard on `this.storage`, one `save`
call with `args.contentType || 'text/plain'`. -/
def GCloudIntegration.writeFile (st : GCState) (w : GCWorld)
    (bucket file content : String) (contentType : Option String) : AdapterRes :=
  if !st.storage then (.error gcsUninit, [])
  else
    let ct := if truthyO contentType then contentType.getD "" else "text/plain"
    let ev := "storage.bucket(" ++ bucket ++ ").file(" ++ file ++ ").save:" ++ ct ++ ":" ++ content
    match w.call ev with
    | .ok d => (.ok d, [ev])
    | .error e => (.error e, [ev])

/-- `GCloudIntegration.getSecret`: guard on `this.secretClient` and
`this.projectId`; compose the version name with
`args.version || 'latest'`; an empty or missing payload throws
`Secret <id> not found or empty`; the underlying call's error is not
caught. -/
def GCloudIntegration.getSecret (st : GCState) (w : GCWorld)
    (secretId : String) (version : Option String) : AdapterRes :=
  if !st.secretClient || !truthyO st.projectId then
    (.error { status := none, message := "Google Cloud Secret Manager client not initialized" }, [])
  else
    let ver := if truthyO version then version.getD "" else "latest"
    let name := "projects/" ++ st.projectId.getD "" ++ "/secrets/" ++ secretId ++ "/versions/" ++ ver
    let ev := "accessSecretVersion:" ++ name
    match w.call ev with
    | .ok d =>
        match d with
        | JVal.vstr s =>
            if truthyS s then (.ok (JVal.vstr s), [ev])
            else (.error { status := none, message := "Secret " ++ secretId ++ " not found or empty" }, [ev])
        | _ => (.error { status := none, message := "Secret " ++ secretId ++ " not found or empty" }, [ev])
    | .error e => (.error e, [ev])

/-- `GCloudIntegration.executeGCloudCommand`: NO uninitialized guard —
the subprocess is launched unconditionally; a failure is rethrown as
`gcloud command failed: <message>`.  The command string is
`gcloud ${args.command} ${args.args?.join(' ') || ''}` (note the
trailing space when no extra args are supplied). -/
def GCloudIntegration.executeGCloudCommand (_st : GCState) (w : GCWorld)
    (command : String) (args : Option (List String)) : AdapterRes :=
  let joined := match args with
    | some xs => String.intercalate " " xs
    | none => ""
  let fullCommand := "gcloud " ++ command ++ " " ++ joined
  let ev := "execSync:" ++ fullCommand
  match w.execSyncCmd fullCommand with
  | .ok out => (.ok (JVal.vstr out.trim), [ev])
  | .error e =>
      (.error { status := none, message := "gcloud command failed: " ++ e.message }, [ev])

/-! ## setup_repos.sh (clone loop) -/

/-- The `REPOS` bash array of `setup_repos.sh`.  In bash, array elements
are whitespace-separated; the stray comma after `"terraform-gcp"` in the
source is therefore part of the element, which is the literal string
`terraform-gcp,`. -/
def REPOS : List String :=
  ["pulse", "pulse-ui", "pulse-apis", "pulse-type-registry", "terraform-gcp,", "n8n-sync"]

/-- The base URL of `setup_repos.sh`. -/
def BASE_URL : String := "https://github.com/anandroid"

/-- One iteration outcome of the clone loop. -/
inductive CloneAction where
  | skip (repo : String)
  | clone (url : String) (dir : String)
deriving DecidableEq

/-- The clone loop of `setup_repos.sh`: for each element of `REPOS`, skip
when a directory of that exact name exists in the target directory,
otherwise run `git clone ${BASE_URL}/${repo}.git "$repo"`. -/
def cloneLoop (existing : List String) : List CloneAction :=
  REPOS.map fun repo =>
    if repo ∈ existing then CloneAction.skip repo
    else CloneAction.clone (BASE_URL ++ "/" ++ repo ++ ".git") repo

/-! ## Supporting lemmas -/

/-- `truthyS` in propositional form. -/
theorem truthyS_eq_true {s : String} : truthyS s = true ↔ s ≠ "" := by
  simp [truthyS]

/-- The filter loop distributes over list append. -/
theorem filterSteps_append (a b : List (String × JVal)) :
    filterSteps (a ++ b) = filterSteps a ++ filterSteps b := by
  induction a with
  | nil => rfl
  | cons kv rest ih => simp [filterSteps, ih]

/-- An operator-tagged entry whose tag is a nonempty string outside the
supported set contributes no builder call. -/
theorem applyFilterEntry_unknown_op {k : String} {v : JVal} {op : String}
    (hop : op ∉ supportedOps) (hne : op ≠ "") :
    applyFilterEntry (k, JVal.vobj (some (JVal.vstr op)) (some v)) = [] := by
  simp only [supportedOps, List.mem_cons, List.mem_singleton, not_or] at hop
  obtain ⟨h1, h2, h3, h4, h5, h6, h7, h8, h9, _⟩ := hop
  simp [applyFilterEntry, truthyJ, truthyS_eq_true.mpr hne, opSwitch,
    h1, h2, h3, h4, h5, h6, h7, h8, h9]

/-! ## Claim theorems: database query operation -/

/-- C6: in `SupabaseIntegration.query`, a filter entry tagged
`{ operator: 'gte', value: v }` chains exactly the greater-or-equal
builder call for that key, while an entry whose operator tag is a
(nonempty) string outside the supported set
eq/neq/gt/gte/lt/lte/like/ilike/in chains nothing for its key and leaves
every other entry's contribution intact. -/
theorem query_gte_applied_unknown_op_dropped (k : String) (v : JVal) (op : String)
    (es1 es2 : List (String × JVal)) (hop : op ∉ supportedOps) (hne : op ≠ "") :
    applyFilterEntry (k, JVal.vobj (some (JVal.vstr "gte")) (some v)) =
      [QueryStep.gte k v] ∧
    filterSteps (es1 ++ (k, JVal.vobj (some (JVal.vstr op)) (some v)) :: es2) =
      filterSteps es1 ++ filterSteps es2 := by
  refine ⟨rfl, ?_⟩
  rw [filterSteps_append]
  show filterSteps es1 ++
      (applyFilterEntry (k, JVal.vobj (some (JVal.vstr op)) (some v)) ++ filterSteps es2) =
    filterSteps es1 ++ filterSteps es2
  rw [applyFilterEntry_unknown_op hop hne, List.nil_append]

/-- Witness for C6 at a concrete input: operator tag `regex` is dropped
while the sibling entries (a `gte` filter and a plain scalar) are kept. -/
theorem query_gte_applied_unknown_op_dropped_witness :
    ("regex" ∉ supportedOps) ∧ ("regex" ≠ "") ∧
    (applyFilterEntry ("score", JVal.vobj (some (JVal.vstr "gte")) (some (JVal.vnum 10))) =
      [QueryStep.gte "score" (JVal.vnum 10)] ∧
    filterSteps ([("a", JVal.vstr "x")] ++
        ("score", JVal.vobj (some (JVal.vstr "regex")) (some (JVal.vnum 10))) ::
          [("b", JVal.vnum 2)]) =
      filterSteps [("a", JVal.vstr "x")] ++ filterSteps [("b", JVal.vnum 2)]) :=
  ⟨by decide, by decide,
    query_gte_applied_unknown_op_dropped "score" (JVal.vnum 10) "regex"
      [("a", JVal.vstr "x")] [("b", JVal.vnum 2)] (by decide) (by decide)⟩

/-- C7: a filter entry whose value is the literal `null` chains the
`is null` builder call for its key — never an equality call. -/
theorem query_null_filter_uses_is_null (k : String) (es1 es2 : List (String × JVal)) :
    filterSteps (es1 ++ (k, JVal.vnull) :: es2) =
      filterSteps es1 ++ QueryStep.isNull k :: filterSteps es2 ∧
    (∀ v : JVal, QueryStep.isNull k ≠ QueryStep.eq k v) := by
  refine ⟨?_, fun v h => by cases h⟩
  rw [filterSteps_append]
  rfl

/-- Witness for C7 at a concrete filter map. -/
theorem query_null_filter_uses_is_null_witness :
    filterSteps ([("a", JVal.vstr "x")] ++ ("deleted_at", JVal.vnull) :: []) =
      filterSteps [("a", JVal.vstr "x")] ++
        QueryStep.isNull "deleted_at" :: filterSteps [] ∧
    (QueryStep.isNull "deleted_at" ≠ QueryStep.eq "deleted_at" JVal.vnull) :=
  ⟨(query_null_filter_uses_is_null "deleted_at" [("a", JVal.vstr "x")] []).1,
   (query_null_filter_uses_is_null "deleted_at" [("a", JVal.vstr "x")] []).2 JVal.vnull⟩

/-- C10: a supplied row limit of `0` is silently dropped — the assembled
builder chain is identical to the one with no limit supplied, because the
limit clause is chained only when `args.limit` is truthy. -/
theorem query_limit_zero_not_applied (args : SupabaseQueryArgs) :
    buildQuery { args with limit := some 0 } = buildQuery { args with limit := none } := by
  simp [buildQuery, limitSteps]

/-! ## Claim theorems: adapter initialization guards -/

/-- C2 (amended): every operational method of the three adapters other
than `GCloudIntegration.executeGCloudCommand` — the Supabase
query/insert/update/delete/rpc, the seven GitHub methods, and the GCloud
storage and secret methods — when invoked before a successful
`initialize()`, fails with its "not initialized" error and performs no
network or subprocess call (its event list is empty). -/
theorem adapters_guard_uninitialized :
    (∀ w args, SupabaseIntegration.query false w args =
      (.error { status := none, message := "Supabase client not initialized" }, [])) ∧
    (∀ w args, SupabaseIntegration.insert false w args =
      (.error { status := none, message := "Supabase client not initialized" }, [])) ∧
    (∀ w args, SupabaseIntegration.update false w args =
      (.error { status := none, message := "Supabase client not initialized" }, [])) ∧
    (∀ w args, SupabaseIntegration.delete false w args =
      (.error { status := none, message := "Supabase client not initialized" }, [])) ∧
    (∀ w args, SupabaseIntegration.rpc false w args =
      (.error { status := none, message := "Supabase client not initialized" }, [])) ∧
    (∀ w o r, GitHubIntegration.getRepository false w o r = (.error githubUninit, [])) ∧
    (∀ w o r, GitHubIntegration.listIssues false w o r = (.error githubUninit, [])) ∧
    (∀ w o r t, GitHubIntegration.createIssue false w o r t = (.error githubUninit, [])) ∧
    (∀ w o r, GitHubIntegration.listPullRequests false w o r = (.error githubUninit, [])) ∧
    (∀ w o r t h b, GitHubIntegration.createPullRequest false w o r t h b =
      (.error githubUninit, [])) ∧
    (∀ w o r p, GitHubIntegration.getFileContent false w o r p = (.error githubUninit, [])) ∧
    (∀ w ty q, GitHubIntegration.search false w ty q = (.error githubUninit, [])) ∧
    (∀ w b, GCloudIntegration.listBucketContents GCState.uninit w b = (.error gcsUninit, [])) ∧
    (∀ w b f, GCloudIntegration.readFile GCState.uninit w b f = (.error gcsUninit, [])) ∧
    (∀ w b f c ct, GCloudIntegration.writeFile GCState.uninit w b f c ct =
      (.error gcsUninit, [])) ∧
    (∀ w sid ver, GCloudIntegration.getSecret GCState.uninit w sid ver =
      (.error { status := none,
                message := "Google Cloud Secret Manager client not initialized" }, [])) :=
  ⟨fun _ _ => rfl, fun _ _ => rfl, fun _ _ => rfl, fun _ _ => rfl, fun _ _ => rfl,
   fun _ _ _ => rfl, fun _ _ _ => rfl, fun _ _ _ _ => rfl, fun _ _ _ => rfl,
   fun _ _ _ _ _ _ => rfl, fun _ _ _ _ => rfl, fun _ _ _ => rfl,
   fun _ _ => rfl, fun _ _ _ => rfl, fun _ _ _ _ _ => rfl, fun _ _ _ => rfl⟩

/-- A concrete world for the C2 counterexample: the subprocess succeeds. -/
def gcWorldCx : GCWorld :=
  { call := fun _ => .error { status := none, message := "unreachable" },
    execSyncCmd := fun _ => .ok "Google Cloud SDK 500.0.0" }

/-- C2 counterexample: `GCloudIntegration.executeGCloudCommand`, invoked
on a fully uninitialized adapter, launches the `gcloud version`
subprocess (nonempty event list) and returns its output instead of
failing with an "uninitialized client" error — refuting the claim that
every operational method guards against an uninitialized client. -/
theorem executeGCloudCommand_runs_while_uninitialized :
    (GCloudIntegration.executeGCloudCommand GCState.uninit gcWorldCx "version" none).2 =
      ["execSync:gcloud version "] ∧
    (GCloudIntegration.executeGCloudCommand GCState.uninit gcWorldCx "version" none).1 =
      .ok (JVal.vstr ("Google Cloud SDK 500.0.0".trim)) := ⟨rfl, rfl⟩

/-! ## Supporting lemmas: SecretsManager -/

/-- The value a successful-or-caught `getSecret` yields, as a function of
the world alone. -/
def fetchedSecret (w : World) (projectId secretId : String) : Option String :=
  match w.accessSecretVersion (secretName projectId secretId) with
  | .ok v => v
  | .error _ => none

/-- `getSecretStep` only appends to the trace; with a live client it
returns `fetchedSecret` and records the fetch attempt. -/
theorem getSecretStep_spec (w : World) (st : SMState) (pid sid : String) :
    (getSecretStep w st pid sid).2.secrets = st.secrets ∧
    (getSecretStep w st pid sid).2.secretClient = st.secretClient ∧
    (st.secretClient = true →
      (getSecretStep w st pid sid).1 = fetchedSecret w pid sid ∧
      (getSecretStep w st pid sid).2.trace =
        st.trace ++ ["accessSecretVersion:" ++ secretName pid sid]) := by
  unfold getSecretStep fetchedSecret recordCall
  by_cases h : st.secretClient = true <;>
    simp only [h] <;>
    cases hv : w.accessSecretVersion (secretName pid sid) <;> simp [h, hv]

/-- `setSupabase` touches only the `supabase` field. -/
theorem setSupabase_spec (st : SMState) (sb : SupabaseSecrets) :
    (setSupabase st sb).secrets.supabase = some sb ∧
    (setSupabase st sb).secrets.github = st.secrets.github ∧
    (setSupabase st sb).secrets.gcloud = st.secrets.gcloud ∧
    (setSupabase st sb).secretClient = st.secretClient ∧
    (setSupabase st sb).trace = st.trace :=
  ⟨rfl, rfl, rfl, rfl, rfl⟩

/-- `setGithub` touches only the `github` field. -/
theorem setGithub_spec (st : SMState) (g : GithubSecrets) :
    (setGithub st g).secrets.supabase = st.secrets.supabase ∧
    (setGithub st g).secrets.github = some g ∧
    (setGithub st g).secrets.gcloud = st.secrets.gcloud ∧
    (setGithub st g).secretClient = st.secretClient ∧
    (setGithub st g).trace = st.trace :=
  ⟨rfl, rfl, rfl, rfl, rfl⟩

/-- Full behaviour of `loadFromSecretManager` on a state with a live
client and a cloud context: the gcloud sub-record and the client flag are
unchanged; all four fetches are attempted (in order) whatever their
outcomes; `supabase` is set exactly when both the url and the anon key
fetches yield truthy values, and `github` exactly when the token fetch
does. -/
theorem loadFromSecretManager_spec (w : World) (st : SMState) (gc : GcloudSecrets)
    (hg : st.secrets.gcloud = some gc) (hc : st.secretClient = true) :
    (loadFromSecretManager w st).secrets.gcloud = st.secrets.gcloud ∧
    (loadFromSecretManager w st).secretClient = st.secretClient ∧
    (loadFromSecretManager w st).trace = st.trace ++
      ["accessSecretVersion:" ++ secretName gc.projectId "supabase-url",
       "accessSecretVersion:" ++ secretName gc.projectId "supabase-anon-key",
       "accessSecretVersion:" ++ secretName gc.projectId "supabase-service-role-key",
       "accessSecretVersion:" ++ secretName gc.projectId "github-token"] ∧
    (loadFromSecretManager w st).secrets.supabase =
      (if truthyO (fetchedSecret w gc.projectId "supabase-url") &&
          truthyO (fetchedSecret w gc.projectId "supabase-anon-key") then
        some { url := (fetchedSecret w gc.projectId "supabase-url").getD "",
               anonKey := (fetchedSecret w gc.projectId "supabase-anon-key").getD "",
               serviceRoleKey := fetchedSecret w gc.projectId "supabase-service-role-key" }
      else st.secrets.supabase) ∧
    (loadFromSecretManager w st).secrets.github =
      (if truthyO (fetchedSecret w gc.projectId "github-token") then
        some { token := (fetchedSecret w gc.projectId "github-token").getD "" }
      else st.secrets.github) := by
  obtain ⟨u1, st1, hE1⟩ : ∃ u s, getSecretStep w st gc.projectId "supabase-url" = (u, s) :=
    ⟨_, _, rfl⟩
  obtain ⟨u2, st2, hE2⟩ : ∃ u s, getSecretStep w st1 gc.projectId "supabase-anon-key" = (u, s) :=
    ⟨_, _, rfl⟩
  obtain ⟨u3, st3, hE3⟩ : ∃ u s,
      getSecretStep w st2 gc.projectId "supabase-service-role-key" = (u, s) := ⟨_, _, rfl⟩
  have S1 := getSecretStep_spec w st gc.projectId "supabase-url"
  rw [hE1] at S1
  obtain ⟨S1sec, S1cl, S1f⟩ := S1
  obtain ⟨S1val, S1tr⟩ := S1f hc
  dsimp only at S1sec S1cl S1val S1tr
  have hc1 : st1.secretClient = true := by rw [S1cl]; exact hc
  have S2 := getSecretStep_spec w st1 gc.projectId "supabase-anon-key"
  rw [hE2] at S2
  obtain ⟨S2sec, S2cl, S2f⟩ := S2
  obtain ⟨S2val, S2tr⟩ := S2f hc1
  dsimp only at S2sec S2cl S2val S2tr
  have hc2 : st2.secretClient = true := by rw [S2cl]; exact hc1
  have S3 := getSecretStep_spec w st2 gc.projectId "supabase-service-role-key"
  rw [hE3] at S3
  obtain ⟨S3sec, S3cl, S3f⟩ := S3
  obtain ⟨S3val, S3tr⟩ := S3f hc2
  dsimp only at S3sec S3cl S3val S3tr
  have hc3 : st3.secretClient = true := by rw [S3cl]; exact hc2
  -- the state after the supabase-populating `if`
  obtain ⟨stA, hA⟩ : ∃ s, (if truthyO u1 && truthyO u2 then
      setSupabase st3
        { url := u1.getD "", anonKey := u2.getD "", serviceRoleKey := u3 }
    else st3) = s := ⟨_, rfl⟩
  have hAsec : stA.secrets.supabase =
      (if truthyO u1 && truthyO u2 then
        some { url := u1.getD "", anonKey := u2.getD "", serviceRoleKey := u3 }
      else st3.secrets.supabase) ∧
      stA.secrets.github = st3.secrets.github ∧
      stA.secrets.gcloud = st3.secrets.gcloud ∧
      stA.secretClient = st3.secretClient ∧ stA.trace = st3.trace := by
    rw [← hA]
    by_cases hcond : (truthyO u1 && truthyO u2) = true <;>
      simp [hcond, setSupabase_spec]
  obtain ⟨hAsup, hAgit, hAgc, hAcl, hAtr⟩ := hAsec
  have hcA : stA.secretClient = true := by rw [hAcl]; exact hc3
  obtain ⟨u4, st4, hE4⟩ : ∃ u s, getSecretStep w stA gc.projectId "github-token" = (u, s) :=
    ⟨_, _, rfl⟩
  have S4 := getSecretStep_spec w stA gc.projectId "github-token"
  rw [hE4] at S4
  obtain ⟨S4sec, S4cl, S4f⟩ := S4
  obtain ⟨S4val, S4tr⟩ := S4f hcA
  dsimp only at S4sec S4cl S4val S4tr
  -- the final state after the github-populating `if`
  obtain ⟨stB, hB⟩ : ∃ s, (if truthyO u4 then setGithub st4 { token := u4.getD "" } else st4) = s :=
    ⟨_, rfl⟩
  have hBsec : stB.secrets.supabase = st4.secrets.supabase ∧
      stB.secrets.github =
        (if truthyO u4 then some { token := u4.getD "" } else st4.secrets.github) ∧
      stB.secrets.gcloud = st4.secrets.gcloud ∧
      stB.secretClient = st4.secretClient ∧ stB.trace = st4.trace := by
    rw [← hB]
    by_cases hcond : truthyO u4 = true <;> simp [hcond, setGithub_spec]
  obtain ⟨hBsup, hBgit, hBgc, hBcl, hBtr⟩ := hBsec
  have hres : loadFromSecretManager w st = stB := by
    unfold loadFromSecretManager loadFromSecretManagerBody
    rw [hg]
    simp only [hE1, hE2, hE3, hA, hE4, hB, StepRes.state]
  rw [hres]
  have hsecs3 : st3.secrets = st.secrets := by rw [S3sec, S2sec, S1sec]
  have hsecs4 : st4.secrets.supabase = stA.secrets.supabase ∧
      st4.secrets.github = stA.secrets.github ∧
      st4.secrets.gcloud = stA.secrets.gcloud := by rw [S4sec]; exact ⟨rfl, rfl, rfl⟩
  refine ⟨?_, ?_, ?_, ?_, ?_⟩
  · rw [hBgc, hsecs4.2.2, hAgc, hsecs3]
  · rw [hBcl, S4cl, hAcl, S3cl, S2cl, S1cl]
  · rw [hBtr, S4tr, hAtr, S3tr, S2tr, S1tr]
    simp [List.append_assoc]
  · rw [hBsup, hsecs4.1, hAsup, S1val, S2val, S3val, hsecs3]
  · rw [hBgit, S4val, hsecs4.2.1, hAgit, hsecs3]

/-- The constructor never populates `supabase` or `github`, and any
`gcloud` record it stores has a truthy project id (the guard of
`initializeGCloud`). -/
theorem mkSecretsManager_spec (w : World) :
    (mkSecretsManager w).secrets.supabase = none ∧
    (mkSecretsManager w).secrets.github = none ∧
    (∀ gc, (mkSecretsManager w).secrets.gcloud = some gc → truthyS gc.projectId = true) := by
  unfold mkSecretsManager initializeGCloud initializeGCloudBody constructSecretClient
  cases hP : w.execProject with
  | error e => simp [recordCall, initState, StepRes.state]
  | ok pid =>
    by_cases hp : truthyS pid = true
    · simp only [hp, if_true]
      cases hA : w.execAdcPath with
      | error e => simp [recordCall, setGcloud, initState, StepRes.state, hp]
      | ok adc =>
        by_cases ha : truthyS adc = true
        · simp only [ha, if_true]
          cases hX : w.adcExists adc with
          | error e => simp [recordCall, setGcloud, initState, StepRes.state, hp]
          | ok ex =>
            cases hN : w.newSecretClient <;> cases ex <;>
              simp [recordCall, setGcloud, initState, StepRes.state, hp]
        · simp only [ha]
          cases hN : w.newSecretClient <;>
            simp [recordCall, setGcloud, initState, StepRes.state, hp, ha]
    · simp [recordCall, initState, StepRes.state, hp]

/-- Full behaviour of `loadFromGCloudConfig`: only `github` can change,
and only when the CLI token derivation succeeds with a truthy token while
no truthy token is stored yet. -/
theorem loadFromGCloudConfig_spec (w : World) (st : SMState) :
    (loadFromGCloudConfig w st).secrets.supabase = st.secrets.supabase ∧
    (loadFromGCloudConfig w st).secrets.gcloud = st.secrets.gcloud ∧
    (loadFromGCloudConfig w st).secretClient = st.secretClient ∧
    (loadFromGCloudConfig w st).secrets.github =
      (match w.execPrintAccessToken with
       | .error _ => st.secrets.github
       | .ok t =>
          if truthyS t && !githubTokenTruthy st.secrets then some { token := t }
          else st.secrets.github) := by
  unfold loadFromGCloudConfig loadFromGCloudConfigBody
  cases hT : w.execPrintAccessToken with
  | error e => simp [recordCall, StepRes.state]
  | ok t =>
    dsimp only
    split
    · next hpos =>
      simp only [recordCall, StepRes.state]
      simp only [recordCall] at hpos
      rw [if_pos hpos]
      simp [setGithub, recordCall]
    · next hneg =>
      simp only [recordCall, StepRes.state]
      simp only [recordCall] at hneg
      rw [if_neg hneg]
      simp

/-- `envSupabase` touches only the `supabase` field, and only when the
stored url is not truthy yet while `SUPABASE_URL` is. -/
theorem envSupabase_spec (w : World) (s : Secrets) :
    (envSupabase w s).github = s.github ∧ (envSupabase w s).gcloud = s.gcloud ∧
    (envSupabase w s).supabase =
      (if !supabaseUrlTruthy s && truthyO w.envSupabaseUrl then
        some { url := w.envSupabaseUrl.getD "", anonKey := w.envSupabaseAnonKey.getD "",
               serviceRoleKey := w.envSupabaseServiceRoleKey }
      else s.supabase) := by
  unfold envSupabase
  split <;> simp

/-- `envGithub` touches only the `github` field, under its guard. -/
theorem envGithub_spec (w : World) (s : Secrets) :
    (envGithub w s).supabase = s.supabase ∧ (envGithub w s).gcloud = s.gcloud ∧
    (envGithub w s).github =
      (if !githubTokenTruthy s && truthyO w.envGithubToken then
        some { token := w.envGithubToken.getD "" }
      else s.github) := by
  unfold envGithub
  split <;> simp

/-- `envGcloud` touches only the `gcloud` field, under its guard. -/
theorem envGcloud_spec (w : World) (s : Secrets) :
    (envGcloud w s).supabase = s.supabase ∧ (envGcloud w s).github = s.github ∧
    (envGcloud w s).gcloud =
      (if !gcloudProjectTruthy s && truthyO w.envGcloudProject then
        some { projectId := w.envGcloudProject.getD "",
               applicationCredentials := s.gcloud.bind GcloudSecrets.applicationCredentials }
      else s.gcloud) := by
  unfold envGcloud
  split <;> simp

/-! ## Stage composition and invariants -/

/-- The state right after `new SecretsManager()`. -/
def afterConstruct (w : World) : SMState := mkSecretsManager w

/-- The state after the managed-store stage of `loadSecrets`. -/
def afterStage1 (w : World) : SMState := stage1Run w (afterConstruct w)

/-- The state after the local-CLI fallback stage. -/
def afterStage2 (w : World) : SMState := loadFromGCloudConfig w (afterStage1 w)

/-- The state after the environment fallback stage. -/
def afterStage3 (w : World) : SMState := loadFromEnvironment w (afterStage2 w)

/-- `loadSecrets` is exactly the three stages in order. -/
theorem loadAll_eq_afterStage3 (w : World) : loadAll w = afterStage3 w := rfl

/-- Well-formedness: every populated sub-record carries a truthy
url / token / project id.  Each populating site in the source is guarded
by the corresponding truthiness test, so this is an invariant of all
stages. -/
def SecretsWF (s : Secrets) : Prop :=
  (∀ sb, s.supabase = some sb → truthyS sb.url = true) ∧
  (∀ g, s.github = some g → truthyS g.token = true) ∧
  (∀ gc, s.gcloud = some gc → truthyS gc.projectId = true)

/-- "Later stages only fill gaps": every sub-record populated in `a` is
present, with the same value, in `b`. -/
def preservesSecrets (a b : Secrets) : Prop :=
  (∀ sb, a.supabase = some sb → b.supabase = some sb) ∧
  (∀ g, a.github = some g → b.github = some g) ∧
  (∀ gc, a.gcloud = some gc → b.gcloud = some gc)

/-- Boolean conjunction in propositional form. -/
theorem and_eq_true_iff {a b : Bool} : (a && b) = true ↔ a = true ∧ b = true := by
  cases a <;> cases b <;> simp

/-- A truthy optional string stays truthy after `.getD ""`. -/
theorem truthyO_getD {o : Option String} (h : truthyO o = true) :
    truthyS (o.getD "") = true := by
  cases o with
  | none => simp [truthyO] at h
  | some s => simpa [truthyO] using h

/-- Unfolding of the gcloud project-id truthiness test. -/
theorem gcloudProjectTruthy_iff {s : Secrets} :
    gcloudProjectTruthy s = true ↔
      ∃ gc, s.gcloud = some gc ∧ truthyS gc.projectId = true := by
  cases hg : s.gcloud <;> simp [gcloudProjectTruthy, hg]

/-- A well-formed populated supabase record makes the url test pass. -/
theorem supabaseUrlTruthy_of_wf {s : Secrets} (hwf : SecretsWF s) {sb : SupabaseSecrets}
    (h : s.supabase = some sb) : supabaseUrlTruthy s = true := by
  simp [supabaseUrlTruthy, h]
  exact hwf.1 sb h

/-- A well-formed populated github record makes the token test pass. -/
theorem githubTokenTruthy_of_wf {s : Secrets} (hwf : SecretsWF s) {g : GithubSecrets}
    (h : s.github = some g) : githubTokenTruthy s = true := by
  simp [githubTokenTruthy, h]
  exact hwf.2.1 g h

/-- A well-formed populated gcloud record makes the project test pass. -/
theorem gcloudProjectTruthy_of_wf {s : Secrets} (hwf : SecretsWF s) {gc : GcloudSecrets}
    (h : s.gcloud = some gc) : gcloudProjectTruthy s = true := by
  simp [gcloudProjectTruthy, h]
  exact hwf.2.2 gc h

/-- The managed-store stage never writes the `gcloud` sub-record. -/
theorem stage1Run_gcloud (w : World) (st : SMState) :
    (stage1Run w st).secrets.gcloud = st.secrets.gcloud := by
  unfold stage1Run
  split
  · next hcond =>
    obtain ⟨hc, hgt⟩ := and_eq_true_iff.mp hcond
    obtain ⟨gc, hg, _⟩ := gcloudProjectTruthy_iff.mp hgt
    exact (loadFromSecretManager_spec w st gc hg hc).1
  · rfl

/-- The managed-store stage maintains well-formedness. -/
theorem stage1Run_wf (w : World) (st : SMState) (hwf : SecretsWF st.secrets) :
    SecretsWF (stage1Run w st).secrets := by
  unfold stage1Run
  split
  · next hcond =>
    obtain ⟨hc, hgt⟩ := and_eq_true_iff.mp hcond
    obtain ⟨gc, hg, _⟩ := gcloudProjectTruthy_iff.mp hgt
    have SP := loadFromSecretManager_spec w st gc hg hc
    refine ⟨?_, ?_, ?_⟩
    · intro sb hsb
      rw [SP.2.2.2.1] at hsb
      revert hsb
      split
      · next hcnd =>
        intro hsb
        obtain ⟨hu, _⟩ := and_eq_true_iff.mp hcnd
        cases hsb
        exact truthyO_getD hu
      · intro hsb
        exact hwf.1 sb hsb
    · intro g hgit
      rw [SP.2.2.2.2] at hgit
      revert hgit
      split
      · next hcnd =>
        intro hgit
        cases hgit
        exact truthyO_getD hcnd
      · intro hgit
        exact hwf.2.1 g hgit
    · intro gc2 hgc
      rw [SP.1] at hgc
      exact hwf.2.2 gc2 hgc
  · exact hwf

/-- With a failing CLI token derivation, the second stage leaves `github`
unchanged. -/
theorem loadFromGCloudConfig_github_err {w : World} {st : SMState} {e : String}
    (hT : w.execPrintAccessToken = .error e) :
    (loadFromGCloudConfig w st).secrets.github = st.secrets.github := by
  obtain ⟨_, _, _, hgit⟩ := loadFromGCloudConfig_spec w st
  rw [hgit, hT]

/-- With a successful CLI token derivation, the second stage sets `github`
only behind the truthiness-and-gap guard. -/
theorem loadFromGCloudConfig_github_ok {w : World} {st : SMState} {t : String}
    (hT : w.execPrintAccessToken = .ok t) :
    (loadFromGCloudConfig w st).secrets.github =
      (if truthyS t && !githubTokenTruthy st.secrets then some { token := t }
       else st.secrets.github) := by
  obtain ⟨_, _, _, hgit⟩ := loadFromGCloudConfig_spec w st
  rw [hgit, hT]

/-- The local-CLI fallback stage fills only a gap: it preserves every
populated sub-record of a well-formed state, and maintains
well-formedness. -/
theorem loadFromGCloudConfig_preserves (w : World) (st : SMState)
    (hwf : SecretsWF st.secrets) :
    preservesSecrets st.secrets (loadFromGCloudConfig w st).secrets ∧
    SecretsWF (loadFromGCloudConfig w st).secrets := by
  obtain ⟨hsup, hgc, _, _⟩ := loadFromGCloudConfig_spec w st
  constructor
  · refine ⟨?_, ?_, ?_⟩
    · intro sb h
      rw [hsup]
      exact h
    · intro g h
      have htt := githubTokenTruthy_of_wf hwf h
      cases hT : w.execPrintAccessToken with
      | error e => rw [loadFromGCloudConfig_github_err hT]; exact h
      | ok t => rw [loadFromGCloudConfig_github_ok hT]; simp [htt, h]
    · intro gc h
      rw [hgc]
      exact h
  · refine ⟨?_, ?_, ?_⟩
    · intro sb h
      rw [hsup] at h
      exact hwf.1 sb h
    · intro g h
      cases hT : w.execPrintAccessToken with
      | error e =>
        rw [loadFromGCloudConfig_github_err hT] at h
        exact hwf.2.1 g h
      | ok t =>
        rw [loadFromGCloudConfig_github_ok hT] at h
        revert h
        split
        · next hcnd =>
          intro h
          cases h
          exact (and_eq_true_iff.mp hcnd).1
        · intro h
          exact hwf.2.1 g h
    · intro gc h
      rw [hgc] at h
      exact hwf.2.2 gc h

/-- `envSupabase` fills only a gap and maintains well-formedness. -/
theorem envSupabase_pres (w : World) (s : Secrets) (hwf : SecretsWF s) :
    preservesSecrets s (envSupabase w s) ∧ SecretsWF (envSupabase w s) := by
  obtain ⟨hgit, hgc, hsup⟩ := envSupabase_spec w s
  constructor
  · refine ⟨?_, ?_, ?_⟩
    · intro sb h
      rw [hsup]
      simp [supabaseUrlTruthy_of_wf hwf h, h]
    · intro g h
      rw [hgit]
      exact h
    · intro gc h
      rw [hgc]
      exact h
  · refine ⟨?_, ?_, ?_⟩
    · intro sb h
      rw [hsup] at h
      revert h
      split
      · next hcnd =>
        intro h
        cases h
        obtain ⟨_, hu⟩ := and_eq_true_iff.mp hcnd
        exact truthyO_getD hu
      · intro h
        exact hwf.1 sb h
    · intro g h
      rw [hgit] at h
      exact hwf.2.1 g h
    · intro gc h
      rw [hgc] at h
      exact hwf.2.2 gc h

/-- `envGithub` fills only a gap and maintains well-formedness. -/
theorem envGithub_pres (w : World) (s : Secrets) (hwf : SecretsWF s) :
    preservesSecrets s (envGithub w s) ∧ SecretsWF (envGithub w s) := by
  obtain ⟨hsup, hgc, hgit⟩ := envGithub_spec w s
  constructor
  · refine ⟨?_, ?_, ?_⟩
    · intro sb h
      rw [hsup]
      exact h
    · intro g h
      rw [hgit]
      simp [githubTokenTruthy_of_wf hwf h, h]
    · intro gc h
      rw [hgc]
      exact h
  · refine ⟨?_, ?_, ?_⟩
    · intro sb h
      rw [hsup] at h
      exact hwf.1 sb h
    · intro g h
      rw [hgit] at h
      revert h
      split
      · next hcnd =>
        intro h
        cases h
        obtain ⟨_, hu⟩ := and_eq_true_iff.mp hcnd
        exact truthyO_getD hu
      · intro h
        exact hwf.2.1 g h
    · intro gc h
      rw [hgc] at h
      exact hwf.2.2 gc h

/-- `envGcloud` fills only a gap and maintains well-formedness. -/
theorem envGcloud_pres (w : World) (s : Secrets) (hwf : SecretsWF s) :
    preservesSecrets s (envGcloud w s) ∧ SecretsWF (envGcloud w s) := by
  obtain ⟨hsup, hgit, hgc⟩ := envGcloud_spec w s
  constructor
  · refine ⟨?_, ?_, ?_⟩
    · intro sb h
      rw [hsup]
      exact h
    · intro g h
      rw [hgit]
      exact h
    · intro gc h
      rw [hgc]
      simp [gcloudProjectTruthy_of_wf hwf h, h]
  · refine ⟨?_, ?_, ?_⟩
    · intro sb h
      rw [hsup] at h
      exact hwf.1 sb h
    · intro g h
      rw [hgit] at h
      exact hwf.2.1 g h
    · intro gc h
      rw [hgc] at h
      revert h
      split
      · next hcnd =>
        intro h
        cases h
        obtain ⟨_, hu⟩ := and_eq_true_iff.mp hcnd
        exact truthyO_getD hu
      · intro h
        exact hwf.2.2 gc h

/-- Chaining gap-filling steps. -/
theorem preservesSecrets_trans {a b c : Secrets}
    (h1 : preservesSecrets a b) (h2 : preservesSecrets b c) : preservesSecrets a c :=
  ⟨fun sb h => h2.1 sb (h1.1 sb h), fun g h => h2.2.1 g (h1.2.1 g h),
   fun gc h => h2.2.2 gc (h1.2.2 gc h)⟩

/-- The environment stage fills only gaps and maintains well-formedness. -/
theorem loadFromEnvironment_preserves (w : World) (st : SMState)
    (hwf : SecretsWF st.secrets) :
    preservesSecrets st.secrets (loadFromEnvironment w st).secrets ∧
    SecretsWF (loadFromEnvironment w st).secrets := by
  have h1 := envSupabase_pres w st.secrets hwf
  have h2 := envGithub_pres w (envSupabase w st.secrets) h1.2
  have h3 := envGcloud_pres w (envGithub w (envSupabase w st.secrets)) h2.2
  exact ⟨preservesSecrets_trans (preservesSecrets_trans h1.1 h2.1) h3.1, h3.2⟩

/-- The constructor's state is well-formed. -/
theorem afterConstruct_wf (w : World) : SecretsWF (afterConstruct w).secrets := by
  unfold afterConstruct
  obtain ⟨h1, h2, h3⟩ := mkSecretsManager_spec w
  refine ⟨fun sb h => ?_, fun g h => ?_, h3⟩
  · rw [h1] at h
    cases h
  · rw [h2] at h
    cases h

/-- The state after the managed-store stage is well-formed. -/
theorem afterStage1_wf (w : World) : SecretsWF (afterStage1 w).secrets :=
  stage1Run_wf w (afterConstruct w) (afterConstruct_wf w)

/-! ## Claim theorems: SecretsManager precedence -/

/-- C3: across the three ordered stages of `loadSecrets`, once an earlier
stage has populated a sub-record of the credential snapshot, no later
stage changes it — each consecutive stage of the actual run (from the
constructed state) only fills still-unset fields. -/
theorem stages_only_fill_gaps (w : World) :
    preservesSecrets (afterConstruct w).secrets (afterStage1 w).secrets ∧
    preservesSecrets (afterStage1 w).secrets (afterStage2 w).secrets ∧
    preservesSecrets (afterStage2 w).secrets (afterStage3 w).secrets := by
  obtain ⟨hmk1, hmk2, _⟩ := mkSecretsManager_spec w
  have h01 : preservesSecrets (afterConstruct w).secrets (afterStage1 w).secrets := by
    refine ⟨?_, ?_, ?_⟩
    · intro sb h
      rw [show (afterConstruct w).secrets.supabase = none from hmk1] at h
      cases h
    · intro g h
      rw [show (afterConstruct w).secrets.github = none from hmk2] at h
      cases h
    · intro gc h
      rw [show (afterStage1 w).secrets.gcloud = (afterConstruct w).secrets.gcloud from
        stage1Run_gcloud w (afterConstruct w)]
      exact h
  have h12 := loadFromGCloudConfig_preserves w (afterStage1 w) (afterStage1_wf w)
  have h23 := loadFromEnvironment_preserves w (afterStage2 w) h12.2
  exact ⟨h01, h12.1, h23.1⟩

/-- C1: if the managed-store stage resolved the database url and anon key
(the `supabase` sub-record is populated after stage 1), the later stages
— in particular the environment fallback, whatever the environment
variables hold — do not override either field: `getSupabaseConfig`
returns the managed-store record unchanged after the full load. -/
theorem managed_store_precedence (w : World) (sb : SupabaseSecrets)
    (h : (afterStage1 w).secrets.supabase = some sb) :
    getSupabaseConfig (loadAll w) = some sb := by
  have h12 := loadFromGCloudConfig_preserves w (afterStage1 w) (afterStage1_wf w)
  have h23 := loadFromEnvironment_preserves w (afterStage2 w) h12.2
  have h2 : (afterStage2 w).secrets.supabase = some sb := h12.1.1 sb h
  have h3 : (afterStage3 w).secrets.supabase = some sb := h23.1.1 sb h2
  rw [loadAll_eq_afterStage3]
  exact h3

/-! ## Claim theorems: failure absorption -/

/-- Whether an external call outcome is a throw. -/
def isErrB {α : Type} : Except String α → Bool
  | .error _ => true
  | .ok _ => false

/-- Total absence of every credential source: the CLI probes throw and
the fallback environment variables are unset. -/
def allSourcesFail (w : World) : Prop :=
  isErrB w.execProject = true ∧ isErrB w.execPrintAccessToken = true ∧
  w.envSupabaseUrl = none ∧ w.envGithubToken = none ∧ w.envGcloudProject = none

/-- C4: no public operation of the `SecretsManager` surfaces an exception
— construction and `loadSecrets` return normally for every outcome of the
external collaborators (the getters and availability predicates are pure
reads and cannot throw); and when every source fails, the failure is
absorbed as "unset": all three availability predicates are false after
the load. -/
theorem secrets_manager_absorbs_failures :
    (∀ w, (ctorRes w).isOkB = true) ∧
    (∀ w st, (loadSecretsRes w st).isOkB = true) ∧
    (∀ w, allSourcesFail w →
      hasSupabase (loadAll w) = false ∧ hasGitHub (loadAll w) = false ∧
      hasGCloud (loadAll w) = false) := by
  refine ⟨fun w => rfl, fun w st => rfl, fun w hf => ?_⟩
  obtain ⟨h1, h2, h3, h4, h5⟩ := hf
  obtain ⟨e1, hE⟩ : ∃ e, w.execProject = .error e := by
    cases hE : w.execProject with
    | error e => exact ⟨e, rfl⟩
    | ok v => rw [hE] at h1; cases h1
  obtain ⟨e2, hP⟩ : ∃ e, w.execPrintAccessToken = .error e := by
    cases hP : w.execPrintAccessToken with
    | error e => exact ⟨e, rfl⟩
    | ok v => rw [hP] at h2; cases h2
  have hmk : (mkSecretsManager w).secrets = initState.secrets ∧
      (mkSecretsManager w).secretClient = false := by
    unfold mkSecretsManager initializeGCloud initializeGCloudBody
    rw [hE]
    simp [recordCall, StepRes.state, initState]
  have hs1 : stage1Run w (mkSecretsManager w) = mkSecretsManager w := by
    unfold stage1Run
    rw [hmk.2]
    simp
  have hfin : loadAll w =
      loadFromEnvironment w (loadFromGCloudConfig w (mkSecretsManager w)) := by
    rw [loadAll_eq_afterStage3]
    unfold afterStage3 afterStage2 afterStage1 afterConstruct
    rw [hs1]
  have h2git : (loadFromGCloudConfig w (mkSecretsManager w)).secrets =
      (mkSecretsManager w).secrets := by
    obtain ⟨hsup, hgc, _, _⟩ := loadFromGCloudConfig_spec w (mkSecretsManager w)
    have hgit := @loadFromGCloudConfig_github_err w (mkSecretsManager w) e2 hP
    cases hSec : (loadFromGCloudConfig w (mkSecretsManager w)).secrets
    cases hSec2 : (mkSecretsManager w).secrets
    rw [hSec] at hsup hgc hgit
    rw [hSec2] at hsup hgc hgit
    simp only at hsup hgc hgit
    rw [hsup, hgc, hgit]
  have henv : ∀ s : Secrets, envGcloud w (envGithub w (envSupabase w s)) = s := by
    intro s
    unfold envSupabase envGithub envGcloud
    simp [h3, h4, h5, truthyO]
  have hfin2 : (loadAll w).secrets = initState.secrets := by
    rw [hfin]
    show (envGcloud w (envGithub w (envSupabase w
      (loadFromGCloudConfig w (mkSecretsManager w)).secrets))) = initState.secrets
    rw [henv, h2git, hmk.1]
  refine ⟨?_, ?_, ?_⟩
  · simp [hasSupabase, hfin2, initState]
  · simp [hasGitHub, githubTokenTruthy, hfin2, initState]
  · simp [hasGCloud, gcloudProjectTruthy, hfin2, initState]

/-- A world in which every credential source fails. -/
def wFail : World :=
  { execProject := .error "gcloud: command not found"
    execAdcPath := .error "gcloud: command not found"
    adcExists := fun _ => .error "not checked"
    newSecretClient := .error "no credentials"
    accessSecretVersion := fun _ => .error "permission denied"
    execPrintAccessToken := .error "no application default credentials"
    envSupabaseUrl := none
    envSupabaseAnonKey := none
    envSupabaseServiceRoleKey := none
    envGithubToken := none
    envGcloudProject := none }

/-- Witness for C4 at the all-sources-failing world: the load completes
and every availability predicate is false. -/
theorem secrets_manager_absorbs_failures_witness :
    allSourcesFail wFail ∧
    (hasSupabase (loadAll wFail) = false ∧ hasGitHub (loadAll wFail) = false ∧
      hasGCloud (loadAll wFail) = false) :=
  ⟨⟨rfl, rfl, rfl, rfl, rfl⟩,
    secrets_manager_absorbs_failures.2.2 wFail ⟨rfl, rfl, rfl, rfl, rfl⟩⟩

/-- C5: in the managed-store stage, each of the four named secrets is
fetched whatever the outcomes of the other fetches (each fetch's failure
is caught inside `getSecret` and treated as absence): the trace always
records all four fetch attempts, and a sibling secret — here the github
token — still resolves when its own fetch succeeds with a truthy value,
regardless of the outcomes of the three supabase fetches. -/
theorem sibling_fetch_isolation (w : World) (st : SMState) (gc : GcloudSecrets) (t : String)
    (hg : st.secrets.gcloud = some gc) (hc : st.secretClient = true)
    (htok : w.accessSecretVersion (secretName gc.projectId "github-token") = .ok (some t))
    (ht : truthyS t = true) :
    (loadFromSecretManager w st).trace = st.trace ++
      ["accessSecretVersion:" ++ secretName gc.projectId "supabase-url",
       "accessSecretVersion:" ++ secretName gc.projectId "supabase-anon-key",
       "accessSecretVersion:" ++ secretName gc.projectId "supabase-service-role-key",
       "accessSecretVersion:" ++ secretName gc.projectId "github-token"] ∧
    (loadFromSecretManager w st).secrets.github = some { token := t } := by
  have SP := loadFromSecretManager_spec w st gc hg hc
  refine ⟨SP.2.2.1, ?_⟩
  rw [SP.2.2.2.2]
  have hf : fetchedSecret w gc.projectId "github-token" = some t := by
    simp [fetchedSecret, htok]
  rw [hf]
  simp [truthyO, ht]

/-- A world for the C5 witness: every supabase fetch fails, the github
token fetch succeeds. -/
def wSibling : World :=
  { execProject := .error "unused"
    execAdcPath := .error "unused"
    adcExists := fun _ => .error "unused"
    newSecretClient := .error "unused"
    accessSecretVersion := fun n =>
      if n = secretName "proj" "github-token" then .ok (some "gh-tok")
      else .error "fetch failed"
    execPrintAccessToken := .error "unused"
    envSupabaseUrl := none
    envSupabaseAnonKey := none
    envSupabaseServiceRoleKey := none
    envGithubToken := none
    envGcloudProject := none }

/-- A `SecretsManager` state with a live client and project, as reached
when the managed-store stage runs. -/
def stSibling : SMState :=
  { secrets := { supabase := none, github := none,
                 gcloud := some { projectId := "proj", applicationCredentials := none } },
    secretClient := true, trace := [] }

/-- Witness for C5: with all three supabase fetches failing, the github
token still resolves and all four fetches are attempted. -/
theorem sibling_fetch_isolation_witness :
    wSibling.accessSecretVersion (secretName "proj" "github-token") = .ok (some "gh-tok") ∧
    truthyS "gh-tok" = true ∧
    ((loadFromSecretManager wSibling stSibling).trace =
      [] ++
      ["accessSecretVersion:" ++ secretName "proj" "supabase-url",
       "accessSecretVersion:" ++ secretName "proj" "supabase-anon-key",
       "accessSecretVersion:" ++ secretName "proj" "supabase-service-role-key",
       "accessSecretVersion:" ++ secretName "proj" "github-token"] ∧
    (loadFromSecretManager wSibling stSibling).secrets.github = some { token := "gh-tok" }) :=
  ⟨rfl, by decide,
    sibling_fetch_isolation wSibling stSibling
      { projectId := "proj", applicationCredentials := none } "gh-tok"
      rfl rfl rfl (by decide)⟩

/-! ## Claim theorems: environment fallback with empty anon key -/

/-- A world where only `SUPABASE_URL` is set: no gcloud CLI, no managed
store, no anon key variable. -/
def wEnvUrlOnly : World :=
  { execProject := .error "gcloud: command not found"
    execAdcPath := .error "unused"
    adcExists := fun _ => .error "unused"
    newSecretClient := .error "unused"
    accessSecretVersion := fun _ => .error "unused"
    execPrintAccessToken := .error "no application default credentials"
    envSupabaseUrl := some "https://db.example"
    envSupabaseAnonKey := none
    envSupabaseServiceRoleKey := none
    envGithubToken := none
    envGcloudProject := none }

/-- C8 counterexample: when the environment fallback populates `supabase`
from `SUPABASE_URL` while `SUPABASE_ANON_KEY` is absent, the anon key is
stored as `''` — and `hasSupabase()` is then FALSE, not true as the claim
states, because the empty string is falsy in the availability check. -/
theorem empty_anon_key_hasSupabase_false :
    getSupabaseConfig (loadAll wEnvUrlOnly) =
      some { url := "https://db.example", anonKey := "", serviceRoleKey := none } ∧
    hasSupabase (loadAll wEnvUrlOnly) = false := by
  constructor <;> rfl

/-- C8 (amended): if the environment fallback populates the database
sub-record from the database URL variable while the anon-key variable is
absent, the record is stored with an empty-string anon key and
`hasSupabase()` returns false — the populated record is reported
unavailable. -/
theorem env_empty_anon_key_reported_unavailable (w : World) (st : SMState)
    (h1 : supabaseUrlTruthy st.secrets = false)
    (h2 : truthyO w.envSupabaseUrl = true)
    (h3 : w.envSupabaseAnonKey = none) :
    (loadFromEnvironment w st).secrets.supabase =
      some { url := w.envSupabaseUrl.getD "", anonKey := "",
             serviceRoleKey := w.envSupabaseServiceRoleKey } ∧
    hasSupabase (loadFromEnvironment w st) = false := by
  have hS := envSupabase_spec w st.secrets
  have hG := envGithub_spec w (envSupabase w st.secrets)
  have hC := envGcloud_spec w (envGithub w (envSupabase w st.secrets))
  have hsup : (loadFromEnvironment w st).secrets.supabase =
      some { url := w.envSupabaseUrl.getD "", anonKey := "",
             serviceRoleKey := w.envSupabaseServiceRoleKey } := by
    show (envGcloud w (envGithub w (envSupabase w st.secrets))).supabase = _
    rw [hC.1, hG.1, hS.2.2]
    simp [h1, h2, h3]
  refine ⟨hsup, ?_⟩
  simp [hasSupabase, hsup, truthyS]

/-- Witness for the amended C8 at a concrete state and world. -/
theorem env_empty_anon_key_reported_unavailable_witness :
    supabaseUrlTruthy initState.secrets = false ∧
    truthyO wEnvUrlOnly.envSupabaseUrl = true ∧
    wEnvUrlOnly.envSupabaseAnonKey = none ∧
    ((loadFromEnvironment wEnvUrlOnly initState).secrets.supabase =
      some { url := wEnvUrlOnly.envSupabaseUrl.getD "", anonKey := "",
             serviceRoleKey := wEnvUrlOnly.envSupabaseServiceRoleKey } ∧
    hasSupabase (loadFromEnvironment wEnvUrlOnly initState) = false) :=
  ⟨rfl, rfl, rfl,
    env_empty_anon_key_reported_unavailable wEnvUrlOnly initState rfl rfl rfl⟩

/-! ## Claim witnesses: precedence at a concrete world -/

/-- A world whose managed store resolves the supabase url and anon key
while the environment variables hold different values. -/
def wPrec : World :=
  { execProject := .ok "proj"
    execAdcPath := .ok ""
    adcExists := fun _ => .error "unused"
    newSecretClient := .ok ()
    accessSecretVersion := fun n =>
      if n = secretName "proj" "supabase-url" then .ok (some "sm-url")
      else if n = secretName "proj" "supabase-anon-key" then .ok (some "sm-key")
      else if n = secretName "proj" "supabase-service-role-key" then .ok none
      else .ok none
    execPrintAccessToken := .error "no application default credentials"
    envSupabaseUrl := some "env-url"
    envSupabaseAnonKey := some "env-key"
    envSupabaseServiceRoleKey := some "env-svc"
    envGithubToken := none
    envGcloudProject := none }

/-- The supabase record the managed store resolves in `wPrec`. -/
def sbPrec : SupabaseSecrets :=
  { url := "sm-url", anonKey := "sm-key", serviceRoleKey := none }

/-- Witness for C1: in `wPrec` the managed-store stage resolves the
record, and the full load still returns it although the environment
variables differ. -/
theorem managed_store_precedence_witness :
    (afterStage1 wPrec).secrets.supabase = some sbPrec ∧
    getSupabaseConfig (loadAll wPrec) = some sbPrec :=
  ⟨by decide, managed_store_precedence wPrec sbPrec (by decide)⟩

/-- A second copy of the precedence world, for the C3 witness. -/
def wGaps : World := wPrec

/-- Witness for C3: in `wGaps` the record populated by stage 1 is still
present unchanged after stage 2. -/
theorem stages_only_fill_gaps_witness :
    (afterStage1 wGaps).secrets.supabase = some sbPrec ∧
    (afterStage2 wGaps).secrets.supabase = some sbPrec :=
  ⟨by decide, (stages_only_fill_gaps wGaps).2.1.1 sbPrec (by decide)⟩

/-! ## Claim theorem: setup_repos.sh clone loop -/

/-- C9 (failing input): with exactly the expected repository directory
`terraform-gcp` already present in the target directory, the clone loop
skips nothing — the fifth `REPOS` element is the literal string
`terraform-gcp,` (the stray comma in the bash array is part of the word),
which never matches the existing directory, so all six iterations attempt
a `git clone`, including one of the nonexistent `terraform-gcp,.git`. -/
theorem cloneLoop_terraform_gcp_not_skipped :
    cloneLoop ["terraform-gcp"] =
      [CloneAction.clone "https://github.com/anandroid/pulse.git" "pulse",
       CloneAction.clone "https://github.com/anandroid/pulse-ui.git" "pulse-ui",
       CloneAction.clone "https://github.com/anandroid/pulse-apis.git" "pulse-apis",
       CloneAction.clone "https://github.com/anandroid/pulse-type-registry.git"
         "pulse-type-registry",
       CloneAction.clone "https://github.com/anandroid/terraform-gcp,.git" "terraform-gcp,",
       CloneAction.clone "https://github.com/anandroid/n8n-sync.git" "n8n-sync"] := by
  decide

end PulseDocs

